import Mathlib

/-!
Verification of the `llm-gcode` prototype (files `proto/stp_to_profile.py` and
`proto/fanuc_lathe.py`).

Modelling conventions:
* Python floats are modelled as exact rationals (`ℚ`); `round(x, 3)` (Python's
  round-half-to-even) is modelled by `round3`, and the fixed-format rendering
  `f"{x:.3f}"` by `fmt3`, which performs the same half-even rounding at the
  third decimal.
* The `while` loop of `_pass_diameters` is partial in Python (it diverges when
  `rough_step <= 0` and the stock is above the target).  It is embedded as a
  fuel-indexed loop `passLoopFuel`; `pass_diameters` supplies a fuel that is
  provably sufficient whenever the Python loop terminates, so `none` means
  exactly that the Python loop runs forever.
* The regex extraction of `CARTESIAN_POINT` coordinates in
  `_parse_points_fallback` is abstracted by taking the list of matched points
  as the argument; the function's own behaviour (raise on an empty match list)
  is kept.
-/

/-- Round-half-to-even to an integer, the rounding mode of Python's `round`
and of `format(x, ".3f")`. -/
def rhe (q : ℚ) : ℤ :=
  let f := ⌊q⌋
  let r := q - f
  if r < 1/2 then f
  else if 1/2 < r then f + 1
  else if f % 2 = 0 then f else f + 1

/-- Python's `round(x, 3)` on exact rationals. -/
def round3 (q : ℚ) : ℚ := (rhe (q * 1000) : ℚ) / 1000

/-- `q` is exactly representable with three decimal places. -/
def Mil (q : ℚ) : Prop := ∃ z : ℤ, q = (z : ℚ) / 1000

/-- One decimal-digit character; defined for digits `0`–`9`. -/
def digitChar (d : ℕ) : Char :=
  if d = 0 then '0' else if d = 1 then '1' else if d = 2 then '2'
  else if d = 3 then '3' else if d = 4 then '4' else if d = 5 then '5'
  else if d = 6 then '6' else if d = 7 then '7' else if d = 8 then '8' else '9'

/-- Decimal digits of a natural number, most significant first
(fuel-indexed so that it computes by kernel reduction; `natToDigits`
always supplies enough fuel). -/
def natToDigitsAux : ℕ → ℕ → List Char
  | 0, _ => []
  | fuel + 1, n =>
    if n < 10 then [digitChar n]
    else natToDigitsAux fuel (n / 10) ++ [digitChar (n % 10)]

/-- Decimal digits of a natural number, as produced by Python's `str`. -/
def natToDigits (n : ℕ) : List Char := natToDigitsAux (n + 1) n

/-- Character list of Python's `f"{q:.3f}"`: sign, integer digits, a dot and
exactly three fractional digits, after half-even rounding at the third
decimal. -/
def fmt3chars (q : ℚ) : List Char :=
  let n := rhe (q * 1000)
  let m := n.natAbs
  (if n < 0 then ['-'] else []) ++ natToDigits (m / 1000) ++
    '.' :: [digitChar (m / 100 % 10), digitChar (m / 10 % 10), digitChar (m % 10)]

/-- Python's `f"{q:.3f}"`. -/
def fmt3 (q : ℚ) : String := ⟨fmt3chars q⟩

/-- Python's `str` on an integer. -/
def fmtInt (n : ℤ) : String := ⟨(if n < 0 then ['-'] else []) ++ natToDigits n.natAbs⟩

/-! ## `proto/stp_to_profile.py` -/

/-- A point parsed from a STEP `CARTESIAN_POINT`. -/
def Point : Type := ℚ × ℚ × ℚ

instance : DecidableEq Point := by unfold Point; infer_instance

/-- The rotation axis chosen by the profiler (`'x' | 'y' | 'z'`). -/
inductive Axis where
  | x
  | y
  | z
deriving DecidableEq, Repr

/-- The six bounding-box extents `(xmin, xmax, ymin, ymax, zmin, zmax)`
threaded through `stp_to_profile`. -/
structure Bounds where
  xmin : ℚ
  xmax : ℚ
  ymin : ℚ
  ymax : ℚ
  zmin : ℚ
  zmax : ℚ
deriving DecidableEq, Repr

/-- `CylinderProfile` from `stp_to_profile.py`: length, diameter, axis, and
the bounding box retained for diagnostics. -/
structure CylinderProfile where
  length : ℚ
  diameter : ℚ
  axis : Axis
  bbox : Bounds
deriving DecidableEq, Repr

/-- `_parse_points_fallback`: the regex scan is abstracted as the list of
matched points; the function raises when no `CARTESIAN_POINT` was found. -/
def parse_points_fallback (pts : List Point) : Except String (List Point) :=
  if pts.isEmpty then .error "no CARTESIAN_POINT found in STEP (fallback)"
  else .ok pts

/-- `_bbox_from_points`: per-coordinate min/max over all points; raises on an
empty list (Python's `min`/`max` of an empty sequence). -/
def bbox_from_points : List Point → Except String Bounds
  | [] => .error "min() arg is an empty sequence"
  | p :: ps =>
    .ok (ps.foldl
      (fun b q =>
        ⟨min b.xmin q.1, max b.xmax q.1, min b.ymin q.2.1, max b.ymax q.2.1,
         min b.zmin q.2.2, max b.zmax q.2.2⟩)
      ⟨p.1, p.1, p.2.1, p.2.1, p.2.2, p.2.2⟩)

/-- `_extents_to_profile`: per-axis extents; the axis is the first dimension
(in the dict insertion order x, y, z) attaining the maximal extent, exactly
as Python's `max(dims, key=dims.get)`; the diameter is the larger of the two
remaining extents. -/
def extents_to_profile (b : Bounds) : CylinderProfile :=
  let dx := b.xmax - b.xmin
  let dy := b.ymax - b.ymin
  let dz := b.zmax - b.zmin
  let axis : Axis := if dy ≤ dx ∧ dz ≤ dx then .x else if dz ≤ dy then .y else .z
  let length := match axis with
    | .x => dx
    | .y => dy
    | .z => dz
  let diameter := match axis with
    | .x => max dy dz
    | .y => max dx dz
    | .z => max dx dy
  ⟨length, diameter, axis, b⟩

/-- The fallback path of `stp_to_profile` (lines 106–110): parse points, take
their bounding box, reduce to a profile. -/
def profile_from_points (pts : List Point) : Except String CylinderProfile := do
  let points ← parse_points_fallback pts
  let bounds ← bbox_from_points points
  pure (extents_to_profile bounds)

/-! ## `proto/fanuc_lathe.py` -/

/-- `TurnParams` with the field order and meaning of the dataclass. -/
structure TurnParams where
  rpm : ℤ
  f_rough : ℚ
  f_finish : ℚ
  f_face : ℚ
  f_part : ℚ
  stock_allow : ℚ
  finish_allow : ℚ
  rough_step : ℚ
  safe_z : ℚ
  cutoff_extra : ℚ
deriving DecidableEq, Repr

/-- The dataclass defaults of `TurnParams`. -/
def defaultParams : TurnParams :=
  { rpm := 1200
    f_rough := 0.20
    f_finish := 0.10
    f_face := 0.10
    f_part := 0.05
    stock_allow := 1.0
    finish_allow := 0.2
    rough_step := 1.0
    safe_z := 3.0
    cutoff_extra := 1.5 }

/-- The `while` loop of `_pass_diameters`, indexed by fuel: while
`d - step > target`, decrement `d` by `step` and record `round(d, 3)`.
`none` means the fuel was exhausted before the loop condition failed. -/
def passLoopFuel : ℕ → ℚ → ℚ → ℚ → Option (List ℚ)
  | 0, _, _, _ => none
  | n + 1, d, step, target =>
    if target < d - step then
      (passLoopFuel n (d - step) step target).map (fun l => round3 (d - step) :: l)
    else
      some []

/-- `_pass_diameters(stock_d, finish_d, params)`.  The fuel
`⌈(stock_d - target) / rough_step⌉ + 1` is provably sufficient whenever the
Python loop terminates (see `pass_diameters_isSome`), and the loop provably
consumes every fuel when it diverges (see the C2 theorem), so `none` means
exactly that the Python call never returns. -/
def pass_diameters (stock_d finish_d : ℚ) (params : TurnParams) : Option (List ℚ) :=
  let target := finish_d + params.finish_allow
  passLoopFuel ((⌈(stock_d - target) / params.rough_step⌉).toNat + 1)
    stock_d params.rough_step target

/-- The three program lines emitted for one roughing pass (loop body at
lines 75–78 of `fanuc_lathe.py`). -/
def rough_block (params : TurnParams) (z_end : ℚ) (d : ℚ) : List String :=
  ["G0X" ++ fmt3 d ++ "Z" ++ fmt3 params.safe_z,
   "G1Z" ++ fmt3 z_end ++ "F" ++ fmt3 params.f_rough,
   "G0Z" ++ fmt3 params.safe_z]

/-- The body of `generate_cylinder_nc` as the list of emitted lines; `none`
when `_pass_diameters` diverges. -/
def generate_lines (profile : CylinderProfile) (params : TurnParams) :
    Option (List String) :=
  let finish_d := round3 profile.diameter
  let stock_d := round3 (finish_d + params.stock_allow * 2)
  let start_d := round3 (stock_d + 2)
  let z_end := -(round3 profile.length)
  (pass_diameters stock_d finish_d params).map (fun rough_diams =>
    ["%", "O0001", "G21", "G18", "G40", "G80", "G97",
     "G0T0101",
     "G97S" ++ fmtInt params.rpm ++ "M03",
     "G0G54X" ++ fmt3 start_d ++ "Z" ++ fmt3 params.safe_z ++ "M8",
     "G99G1Z0.F" ++ fmt3 params.f_face,
     "X0.",
     "G0X" ++ fmt3 start_d ++ "Z" ++ fmt3 params.safe_z]
    ++ rough_diams.flatMap (rough_block params z_end)
    ++ ["G0X" ++ fmt3 (finish_d + params.finish_allow) ++ "Z" ++ fmt3 params.safe_z,
        "G1Z" ++ fmt3 z_end ++ "F" ++ fmt3 params.f_finish,
        "G1X" ++ fmt3 finish_d,
        "G0Z" ++ fmt3 params.safe_z,
        "G28U0.V0.W0.M05",
        "T0100",
        "M01",
        "G0T0303",
        "G97S" ++ fmtInt params.rpm ++ "M03",
        "G0G54X" ++ fmt3 start_d ++ "Z" ++ fmt3 (z_end - params.cutoff_extra),
        "G1X-1.0F" ++ fmt3 params.f_part,
        "G0Z" ++ fmt3 params.safe_z,
        "G28U0.V0.W0.M05",
        "T0300",
        "M30",
        "%"])

/-- `_format`: join with newlines, with a trailing newline when nonempty. -/
def format_lines (lines : List String) : String :=
  String.intercalate "\n" lines ++ (if lines.isEmpty then "" else "\n")

/-- `generate_cylinder_nc(profile, params)` as the final program text;
`none` when the pass-planning loop diverges. -/
def generate_cylinder_nc (profile : CylinderProfile) (params : TurnParams) :
    Option String :=
  (generate_lines profile params).map format_lines

/-! ## Auxiliary predicates used to state the claims -/

/-- The extent of a given dimension of a bounding box (the `dims` dict). -/
def extentOf (b : Bounds) : Axis → ℚ
  | .x => b.xmax - b.xmin
  | .y => b.ymax - b.ymin
  | .z => b.zmax - b.zmin

/-- The larger of the two extents other than the given axis
(`max(radial_dims)`). -/
def remainingMax (b : Bounds) : Axis → ℚ
  | .x => max (b.ymax - b.ymin) (b.zmax - b.zmin)
  | .y => max (b.xmax - b.xmin) (b.zmax - b.zmin)
  | .z => max (b.xmax - b.xmin) (b.ymax - b.ymin)

/-- Checks that the next three characters are digits and the fourth (when
present) is not: the shape of a fixed three-decimal fraction. -/
def check3 : List Char → Bool
  | a :: b :: c :: rest =>
    a.isDigit && b.isDigit && c.isDigit &&
      (match rest with
       | [] => true
       | d :: _ => !d.isDigit)
  | _ => false

/-- Every decimal point in the character list is followed by exactly three
digits: the formal reading of "every numeric value is rendered with exactly
three decimal places". -/
def dots3 : List Char → Bool
  | [] => true
  | c :: rest => (if c = '.' then check3 rest else true) && dots3 rest

/-- `headNotDigit r` holds when `r` does not start with a digit. -/
def headNotDigit : List Char → Bool
  | [] => true
  | c :: _ => !c.isDigit

/-! ## Concrete inputs used by the claims -/

/-- The worked example of the spec: `length=50.0, diameter=20.0, axis="z"`,
with the bounding box of a 20×20×50 block. -/
def exProfile : CylinderProfile := ⟨50, 20, Axis.z, ⟨0, 20, 0, 20, 0, 50⟩⟩

/-- The lines generated for the worked example under default parameters
(proved equal to `generate_lines exProfile defaultParams` below). -/
def exLinesList : List String :=
  ["%", "O0001", "G21", "G18", "G40", "G80", "G97", "G0T0101", "G97S1200M03",
   "G0G54X24.000Z3.000M8", "G99G1Z0.F0.100", "X0.", "G0X24.000Z3.000",
   "G0X21.000Z3.000", "G1Z-50.000F0.200", "G0Z3.000", "G0X20.200Z3.000",
   "G1Z-50.000F0.100", "G1X20.000", "G0Z3.000", "G28U0.V0.W0.M05", "T0100",
   "M01", "G0T0303", "G97S1200M03", "G0G54X24.000Z-51.500", "G1X-1.0F0.050",
   "G0Z3.000", "G28U0.V0.W0.M05", "T0300", "M30", "%"]

/-- Default parameters with `rough_step = 0` (the fail-fast edge case). -/
def paramsZeroStep : TurnParams := { defaultParams with rough_step := 0 }

/-- Valid parameters (positive step, non-negative allowance) whose step is
not a multiple of 0.001. -/
def paramsA : TurnParams := { defaultParams with rough_step := 1/2500 }

/-- Valid parameters with a milli-step but used from a stock diameter that is
not a multiple of 0.001. -/
def paramsB : TurnParams :=
  { defaultParams with finish_allow := 199/1000, rough_step := 1/1000 }

/-- Valid parameters with zero finish allowance and step `0.0004`. -/
def paramsC : TurnParams := { defaultParams with finish_allow := 0, rough_step := 1/2500 }

/-! ## Numeric lemmas -/

lemma rhe_intCast (z : ℤ) : rhe (z : ℚ) = z := by
  simp [rhe, Int.floor_intCast]

lemma round3_of_mil {q : ℚ} (h : Mil q) : round3 q = q := by
  obtain ⟨z, rfl⟩ := h
  have h1000 : ((1000 : ℚ)) ≠ 0 := by norm_num
  have : ((z : ℚ) / 1000) * 1000 = (z : ℚ) := by field_simp
  rw [round3, this, rhe_intCast]

lemma mil_round3 (q : ℚ) : Mil (round3 q) := ⟨rhe (q * 1000), rfl⟩

lemma round3_idem (q : ℚ) : round3 (round3 q) = round3 q :=
  round3_of_mil (mil_round3 q)

lemma mil_sub {a b : ℚ} (ha : Mil a) (hb : Mil b) : Mil (a - b) := by
  obtain ⟨x, rfl⟩ := ha
  obtain ⟨y, rfl⟩ := hb
  exact ⟨x - y, by push_cast; ring⟩

/-! ## Lemmas about the pass-planning loop -/

lemma passLoop_none (step target : ℚ) (hs : step ≤ 0) :
    ∀ (n : ℕ) (d : ℚ), target < d - step →
      passLoopFuel n d step target = none := by
  intro n
  induction n with
  | zero => intro d _; rfl
  | succ n ih =>
    intro d hd
    have : passLoopFuel (n + 1) d step target =
        (passLoopFuel n (d - step) step target).map
          (fun l => round3 (d - step) :: l) := by
      simp [passLoopFuel, hd]
    rw [this, ih (d - step) (by linarith)]
    rfl

lemma passLoop_isSome (step target : ℚ) (hs : 0 < step) :
    ∀ (n : ℕ) (d : ℚ), d - target ≤ n * step →
      (passLoopFuel (n + 1) d step target).isSome = true := by
  intro n
  induction n with
  | zero =>
    intro d hd
    have hc : ¬ target < d - step := by
      simp only [Nat.cast_zero, zero_mul] at hd
      intro h; linarith
    simp [passLoopFuel, hc]
  | succ n ih =>
    intro d hd
    by_cases hc : target < d - step
    · have hrec : (d - step) - target ≤ n * step := by
        push_cast at hd ⊢
        linarith
      have hsome := ih (d - step) hrec
      obtain ⟨l, hl⟩ := Option.isSome_iff_exists.mp hsome
      have hgoal : passLoopFuel (n + 1 + 1) d step target =
          (passLoopFuel (n + 1) (d - step) step target).map
            (fun l => round3 (d - step) :: l) := by
        conv_lhs => rw [passLoopFuel]
        rw [if_pos hc]
      rw [hgoal, hl]
      rfl
    · simp [passLoopFuel, hc]

lemma pass_diameters_isSome (stock_d finish_d : ℚ) (params : TurnParams)
    (hs : 0 < params.rough_step) :
    (pass_diameters stock_d finish_d params).isSome = true := by
  set step := params.rough_step with hstep
  set target := finish_d + params.finish_allow with htarget
  apply passLoop_isSome step target hs
  set N := (⌈(stock_d - target) / step⌉).toNat with hN
  rcases le_or_lt (stock_d - target) 0 with h | h
  · calc stock_d - target ≤ 0 := h
      _ ≤ (N : ℚ) * step := by positivity
  · have hx : (0 : ℚ) < (stock_d - target) / step := by positivity
    have hceil : (stock_d - target) / step ≤ (⌈(stock_d - target) / step⌉ : ℚ) :=
      Int.le_ceil _
    have hpos : (0 : ℤ) ≤ ⌈(stock_d - target) / step⌉ := by
      exact_mod_cast (Int.ceil_nonneg hx.le)
    have hcast : ((N : ℤ) : ℚ) = ((⌈(stock_d - target) / step⌉ : ℤ) : ℚ) := by
      rw [hN, Int.toNat_of_nonneg hpos]
    have h1 : (stock_d - target) / step ≤ (N : ℚ) := by
      rw [show ((N : ℕ) : ℚ) = ((N : ℤ) : ℚ) by push_cast; ring, hcast]
      exact hceil
    have hstep0 : step ≠ 0 := ne_of_gt hs
    calc stock_d - target = ((stock_d - target) / step) * step := by field_simp
      _ ≤ (N : ℚ) * step := by
          exact mul_le_mul_of_nonneg_right h1 hs.le

lemma passLoop_chain (step target : ℚ) (hms : Mil step) (hs : 0 < step) :
    ∀ (n : ℕ) (d : ℚ) (l : List ℚ), Mil d →
      passLoopFuel n d step target = some l →
      List.Chain' (fun a b => b < a) (d :: l) ∧ ∀ x ∈ l, target < x := by
  intro n
  induction n with
  | zero => intro d l _ h; simp [passLoopFuel] at h
  | succ n ih =>
    intro d l hd h
    by_cases hc : target < d - step
    · simp only [passLoopFuel, if_pos hc, Option.map_eq_some'] at h
      obtain ⟨l0, hl0, rfl⟩ := h
      have hmil : Mil (d - step) := mil_sub hd hms
      have hr : round3 (d - step) = d - step := round3_of_mil hmil
      obtain ⟨hchain, hmem⟩ := ih (d - step) l0 hmil hl0
      rw [hr]
      constructor
      · exact List.chain'_cons.mpr ⟨by linarith, hchain⟩
      · intro x hx
        rcases List.mem_cons.mp hx with rfl | hx
        · exact hc
        · exact hmem x hx
    · simp only [passLoopFuel, if_neg hc] at h
      obtain rfl := Option.some_injective _ h.symm
      exact ⟨List.chain'_singleton d, by simp⟩

lemma passLoop_get (step target : ℚ) :
    ∀ (n : ℕ) (d : ℚ) (l : List ℚ),
      passLoopFuel n d step target = some l →
      ∀ k : ℕ, k < l.length →
        l.get? k = some (round3 (d - (k + 1) * step)) := by
  intro n
  induction n with
  | zero => intro d l h; simp [passLoopFuel] at h
  | succ n ih =>
    intro d l h k hk
    by_cases hc : target < d - step
    · simp only [passLoopFuel, if_pos hc, Option.map_eq_some'] at h
      obtain ⟨l0, hl0, rfl⟩ := h
      cases k with
      | zero =>
        simp only [List.get?]
        congr 2
        ring
      | succ k =>
        simp only [List.length_cons, Nat.succ_lt_succ_iff] at hk
        have := ih (d - step) l0 hl0 k hk
        simp only [List.get?]
        rw [this]
        congr 2
        push_cast
        ring
    · simp only [passLoopFuel, if_neg hc] at h
      obtain rfl := Option.some_injective _ h.symm
      simp at hk

lemma length_flatMap_rough (params : TurnParams) (z_end : ℚ) :
    ∀ ds : List ℚ, (ds.flatMap (rough_block params z_end)).length = 3 * ds.length := by
  intro ds
  induction ds with
  | nil => rfl
  | cons d ds ih =>
    simp only [List.flatMap_cons, List.length_append, ih, rough_block,
      List.length_cons, List.length_nil]
    ring

/-! ## Lemmas about the rendered text -/

lemma str_data_append (a b : String) : (a ++ b).data = a.data ++ b.data := rfl

lemma fmt3_data (q : ℚ) : (fmt3 q).data = fmt3chars q := rfl

lemma digitChar_isDigit (d : ℕ) : (digitChar d).isDigit = true := by
  unfold digitChar
  split_ifs <;> decide

lemma isDigit_ne_dot (c : Char) (h : c.isDigit = true) : c ≠ '.' := by
  intro hc
  rw [hc] at h
  exact absurd h (by decide)

lemma natToDigitsAux_digits :
    ∀ (fuel n : ℕ) (c : Char), c ∈ natToDigitsAux fuel n → c.isDigit = true := by
  intro fuel
  induction fuel with
  | zero => intro n c hc; simp [natToDigitsAux] at hc
  | succ fuel ih =>
    intro n c hc
    by_cases h : n < 10
    · simp only [natToDigitsAux, if_pos h, List.mem_singleton] at hc
      subst hc
      exact digitChar_isDigit n
    · simp only [natToDigitsAux, if_neg h, List.mem_append, List.mem_singleton] at hc
      rcases hc with hc | hc
      · exact ih (n / 10) c hc
      · subst hc
        exact digitChar_isDigit (n % 10)

lemma natToDigits_digits (n : ℕ) (c : Char) (hc : c ∈ natToDigits n) :
    c.isDigit = true :=
  natToDigitsAux_digits (n + 1) n c hc

lemma dots3_cons (c : Char) (r : List Char) :
    dots3 (c :: r) = ((if c = '.' then check3 r else true) && dots3 r) := rfl

lemma dots3_cons_of_ne {c : Char} (r : List Char) (h : c ≠ '.') :
    dots3 (c :: r) = dots3 r := by
  rw [dots3_cons, if_neg h, Bool.true_and]

lemma dots3_append_no_dot (a r : List Char) (ha : ∀ c ∈ a, c ≠ '.') :
    dots3 (a ++ r) = dots3 r := by
  induction a with
  | nil => rfl
  | cons c cs ih =>
    rw [List.cons_append, dots3_cons_of_ne _ (ha c (List.mem_cons_self c cs)),
      ih (fun x hx => ha x (List.mem_cons_of_mem c hx))]

lemma dots3_of_no_dot (s : List Char) (h : ∀ c ∈ s, c ≠ '.') : dots3 s = true := by
  induction s with
  | nil => rfl
  | cons c cs ih =>
    rw [dots3_cons_of_ne _ (h c (List.mem_cons_self c cs))]
    exact ih (fun x hx => h x (List.mem_cons_of_mem c hx))

lemma dots3_fmt3_append (q : ℚ) (r : List Char) (hr : dots3 r = true)
    (hh : headNotDigit r = true) : dots3 (fmt3chars q ++ r) = true := by
  unfold fmt3chars
  simp only [List.append_assoc, List.cons_append, List.nil_append]
  rw [dots3_append_no_dot _ _ (by split <;> simp)]
  rw [dots3_append_no_dot _ _
    (fun c hc => isDigit_ne_dot c (natToDigits_digits _ c hc))]
  rw [dots3_cons, if_pos rfl, Bool.and_eq_true]
  constructor
  · show check3 (_ :: _ :: _ :: r) = true
    cases r with
    | nil => simp [check3, digitChar_isDigit]
    | cons c cs =>
      simp only [check3, Bool.and_eq_true]
      refine ⟨⟨⟨digitChar_isDigit _, digitChar_isDigit _⟩, digitChar_isDigit _⟩, ?_⟩
      simpa [headNotDigit] using hh
  · rw [dots3_cons_of_ne _ (isDigit_ne_dot _ (digitChar_isDigit _)),
      dots3_cons_of_ne _ (isDigit_ne_dot _ (digitChar_isDigit _)),
      dots3_cons_of_ne _ (isDigit_ne_dot _ (digitChar_isDigit _))]
    exact hr

lemma dots3_fmt3_nil (q : ℚ) : dots3 (fmt3chars q) = true := by
  have := dots3_fmt3_append q [] rfl rfl
  simpa using this

lemma no_dot_fmtInt (n : ℤ) : ∀ c ∈ (fmtInt n).data, c ≠ '.' := by
  intro c hc
  simp only [fmtInt, List.mem_append] at hc
  rcases hc with hc | hc
  · by_cases hn : n < 0
    · rw [if_pos hn] at hc
      simp only [List.mem_singleton] at hc
      subst hc
      decide
    · rw [if_neg hn] at hc
      simp at hc
  · exact isDigit_ne_dot c (natToDigits_digits _ c hc)

lemma dots3_pre_fmt3 (pre : List Char) (hpre : ∀ c ∈ pre, c ≠ '.') (a : ℚ)
    (r : List Char) (hr : dots3 r = true) (hh : headNotDigit r = true) :
    dots3 (pre ++ (fmt3chars a ++ r)) = true := by
  rw [dots3_append_no_dot _ _ hpre]
  exact dots3_fmt3_append a r hr hh

lemma dots3_line_G0XZ (a b : ℚ) :
    dots3 ("G0X" ++ fmt3 a ++ "Z" ++ fmt3 b).data = true := by
  simp only [str_data_append, List.append_assoc]
  apply dots3_pre_fmt3 _ (by decide)
  · show dots3 ('Z' :: fmt3chars b) = true
    rw [dots3_cons_of_ne _ (by decide)]
    exact dots3_fmt3_nil b
  · rfl

lemma dots3_line_G1ZF (a b : ℚ) :
    dots3 ("G1Z" ++ fmt3 a ++ "F" ++ fmt3 b).data = true := by
  simp only [str_data_append, List.append_assoc]
  apply dots3_pre_fmt3 _ (by decide)
  · show dots3 ('F' :: fmt3chars b) = true
    rw [dots3_cons_of_ne _ (by decide)]
    exact dots3_fmt3_nil b
  · rfl

lemma dots3_line_G0Z (a : ℚ) : dots3 ("G0Z" ++ fmt3 a).data = true := by
  simp only [str_data_append]
  rw [dots3_append_no_dot _ _ (by decide)]
  exact dots3_fmt3_nil a

lemma dots3_line_G1X (a : ℚ) : dots3 ("G1X" ++ fmt3 a).data = true := by
  simp only [str_data_append]
  rw [dots3_append_no_dot _ _ (by decide)]
  exact dots3_fmt3_nil a

lemma dots3_line_G0G54XZM8 (a b : ℚ) :
    dots3 ("G0G54X" ++ fmt3 a ++ "Z" ++ fmt3 b ++ "M8").data = true := by
  simp only [str_data_append, List.append_assoc]
  apply dots3_pre_fmt3 _ (by decide)
  · show dots3 ('Z' :: (fmt3chars b ++ ['M', '8'])) = true
    rw [dots3_cons_of_ne _ (by decide)]
    exact dots3_fmt3_append b ['M', '8'] (by decide) (by decide)
  · rfl

lemma dots3_line_G0G54XZ (a b : ℚ) :
    dots3 ("G0G54X" ++ fmt3 a ++ "Z" ++ fmt3 b).data = true := by
  simp only [str_data_append, List.append_assoc]
  apply dots3_pre_fmt3 _ (by decide)
  · show dots3 ('Z' :: fmt3chars b) = true
    rw [dots3_cons_of_ne _ (by decide)]
    exact dots3_fmt3_nil b
  · rfl

lemma dots3_line_G97S (n : ℤ) : dots3 ("G97S" ++ fmtInt n ++ "M03").data = true := by
  apply dots3_of_no_dot
  intro c hc
  simp only [str_data_append, List.mem_append] at hc
  rcases hc with (hc | hc) | hc
  · revert c
    decide
  · exact no_dot_fmtInt n c hc
  · revert c
    decide

/-- The axis chosen by `_extents_to_profile`, written out. -/
lemma axis_eq (b : Bounds) :
    (extents_to_profile b).axis =
      (if b.ymax - b.ymin ≤ b.xmax - b.xmin ∧ b.zmax - b.zmin ≤ b.xmax - b.xmin
       then Axis.x
       else if b.zmax - b.zmin ≤ b.ymax - b.ymin then Axis.y else Axis.z) := rfl

/-! ## Evaluation lemmas: computing `rhe`, `round3`, `fmt3` and the loop on
concrete rationals (the kernel cannot reduce `Rat` arithmetic, so concrete
values are established through `Int.floor`/`Int.ceil` characterisations). -/

lemma rhe_eval_lt {q : ℚ} {f : ℤ} (h1 : (f : ℚ) ≤ q) (h2 : q - (f : ℚ) < 1/2) :
    rhe q = f := by
  have hf : ⌊q⌋ = f := Int.floor_eq_iff.mpr ⟨h1, by linarith⟩
  simp only [rhe, hf]
  rw [if_pos h2]

lemma rhe_eval_gt {q : ℚ} {f r : ℤ} (h1 : (1 : ℚ)/2 < q - (f : ℚ))
    (h2 : q < (f : ℚ) + 1) (hr : r = f + 1) : rhe q = r := by
  have hf : ⌊q⌋ = f := Int.floor_eq_iff.mpr ⟨by linarith, by linarith⟩
  simp only [rhe, hf]
  rw [if_neg (by linarith), if_pos h1, hr]

lemma rhe_eval_half_even {q : ℚ} {f : ℤ} (h : q - (f : ℚ) = 1/2)
    (h2 : f % 2 = 0) : rhe q = f := by
  have hf : ⌊q⌋ = f := Int.floor_eq_iff.mpr ⟨by linarith, by linarith⟩
  simp only [rhe, hf]
  rw [if_neg (by rw [h]; norm_num), if_neg (by rw [h]; norm_num), if_pos h2]

lemma rhe_eval_half_odd {q : ℚ} {f r : ℤ} (h : q - (f : ℚ) = 1/2)
    (h2 : ¬ f % 2 = 0) (hr : r = f + 1) : rhe q = r := by
  have hf : ⌊q⌋ = f := Int.floor_eq_iff.mpr ⟨by linarith, by linarith⟩
  simp only [rhe, hf]
  rw [if_neg (by rw [h]; norm_num), if_neg (by rw [h]; norm_num), if_neg h2, hr]

lemma round3_eval {q : ℚ} {z : ℤ} (h : rhe (q * 1000) = z) {v : ℚ}
    (hv : (z : ℚ) / 1000 = v) : round3 q = v := by
  rw [round3, h, hv]

lemma rhe_intMul {q : ℚ} {z : ℤ} (h : q * 1000 = (z : ℚ)) : rhe (q * 1000) = z := by
  rw [h, rhe_intCast]

lemma ceil_toNat_eval {q : ℚ} {z : ℤ} (h1 : (z : ℚ) - 1 < q) (h2 : q ≤ z)
    {n : ℕ} (hn : z.toNat = n) : (⌈q⌉).toNat = n := by
  rw [Int.ceil_eq_iff.mpr ⟨h1, h2⟩, hn]

lemma passLoopFuel_succ_pos (n : ℕ) (d step target : ℚ) (h : target < d - step) :
    passLoopFuel (n + 1) d step target =
      (passLoopFuel n (d - step) step target).map (fun l => round3 (d - step) :: l) := by
  conv_lhs => rw [passLoopFuel]
  rw [if_pos h]

lemma passLoopFuel_succ_neg (n : ℕ) (d step target : ℚ) (h : ¬ target < d - step) :
    passLoopFuel (n + 1) d step target = some [] := by
  conv_lhs => rw [passLoopFuel]
  rw [if_neg h]

lemma pass_diameters_eq (stock_d finish_d : ℚ) (params : TurnParams) :
    pass_diameters stock_d finish_d params =
      passLoopFuel
        ((⌈(stock_d - (finish_d + params.finish_allow)) / params.rough_step⌉).toNat + 1)
        stock_d params.rough_step (finish_d + params.finish_allow) := rfl

lemma fmt3_eval {q : ℚ} {z : ℤ} (h : rhe (q * 1000) = z) :
    fmt3 q = ⟨(if z < 0 then ['-'] else []) ++ natToDigits (z.natAbs / 1000) ++
      '.' :: [digitChar (z.natAbs / 100 % 10), digitChar (z.natAbs / 10 % 10),
        digitChar (z.natAbs % 10)]⟩ := by
  simp only [fmt3, fmt3chars, h]

lemma fmt3_24 : fmt3 (24 : ℚ) = "24.000" := by
  rw [fmt3_eval (rhe_intMul (z := 24000) (by norm_num))]
  rfl

lemma fmt3_3 : fmt3 (3 : ℚ) = "3.000" := by
  rw [fmt3_eval (rhe_intMul (z := 3000) (by norm_num))]
  rfl

lemma fmt3_tenth : fmt3 ((1 : ℚ)/10) = "0.100" := by
  rw [fmt3_eval (rhe_intMul (z := 100) (by norm_num))]
  rfl

lemma fmt3_fifth : fmt3 ((1 : ℚ)/5) = "0.200" := by
  rw [fmt3_eval (rhe_intMul (z := 200) (by norm_num))]
  rfl

lemma fmt3_twentieth : fmt3 ((1 : ℚ)/20) = "0.050" := by
  rw [fmt3_eval (rhe_intMul (z := 50) (by norm_num))]
  rfl

lemma fmt3_21 : fmt3 (21 : ℚ) = "21.000" := by
  rw [fmt3_eval (rhe_intMul (z := 21000) (by norm_num))]
  rfl

lemma fmt3_202 : fmt3 ((101 : ℚ)/5) = "20.200" := by
  rw [fmt3_eval (rhe_intMul (z := 20200) (by norm_num))]
  rfl

lemma fmt3_20 : fmt3 (20 : ℚ) = "20.000" := by
  rw [fmt3_eval (rhe_intMul (z := 20000) (by norm_num))]
  rfl

lemma fmt3_neg50 : fmt3 (-50 : ℚ) = "-50.000" := by
  rw [fmt3_eval (rhe_intMul (z := -50000) (by norm_num))]
  rfl

lemma fmt3_neg515 : fmt3 ((-103 : ℚ)/2) = "-51.500" := by
  rw [fmt3_eval (rhe_intMul (z := -51500) (by norm_num))]
  rfl

/-- The pass plan of the worked example: one roughing pass at 21. -/
lemma pass_diameters_default_eval : pass_diameters 22 20 defaultParams = some [21] := by
  have hstep : defaultParams.rough_step = 1 := by norm_num [defaultParams]
  have hallow : defaultParams.finish_allow = 1/5 := by norm_num [defaultParams]
  rw [pass_diameters_eq, hstep, hallow]
  rw [show (20 : ℚ) + 1/5 = 101/5 by norm_num]
  rw [show ((⌈((22 : ℚ) - 101/5) / 1⌉).toNat + 1) = 3 by
    rw [ceil_toNat_eval (z := 2) (n := 2) (by norm_num) (by norm_num) rfl]]
  rw [passLoopFuel_succ_pos 2 _ _ _ (by norm_num)]
  rw [passLoopFuel_succ_neg 1 _ _ _ (by norm_num)]
  simp only [Option.map_some']
  rw [show (22 : ℚ) - 1 = 21 by norm_num, round3_of_mil ⟨21000, by norm_num⟩]

/-- The program generated for the worked example, fully evaluated. -/
lemma generate_exProfile_eval :
    generate_lines exProfile defaultParams = some exLinesList := by
  have e20 : round3 ((20 : ℚ)) = 20 := round3_of_mil ⟨20000, by norm_num⟩
  have e22 : round3 ((22 : ℚ)) = 22 := round3_of_mil ⟨22000, by norm_num⟩
  have e24 : round3 ((24 : ℚ)) = 24 := round3_of_mil ⟨24000, by norm_num⟩
  have e50 : round3 ((50 : ℚ)) = 50 := round3_of_mil ⟨50000, by norm_num⟩
  simp only [generate_lines, exProfile]
  rw [e20]
  rw [show (20 : ℚ) + defaultParams.stock_allow * 2 = 22 by norm_num [defaultParams]]
  rw [e22]
  rw [show (22 : ℚ) + 2 = 24 by norm_num]
  rw [e24, e50]
  rw [pass_diameters_default_eval]
  simp only [Option.map_some', List.flatMap_cons, List.flatMap_nil, rough_block,
    List.append_nil]
  rw [show defaultParams.rpm = 1200 from rfl]
  rw [show defaultParams.safe_z = 3 by norm_num [defaultParams]]
  rw [show defaultParams.f_face = 1/10 by norm_num [defaultParams]]
  rw [show defaultParams.f_rough = 1/5 by norm_num [defaultParams]]
  rw [show defaultParams.finish_allow = 1/5 by norm_num [defaultParams]]
  rw [show defaultParams.f_finish = 1/10 by norm_num [defaultParams]]
  rw [show defaultParams.f_part = 1/20 by norm_num [defaultParams]]
  rw [show defaultParams.cutoff_extra = 3/2 by norm_num [defaultParams]]
  rw [show (20 : ℚ) + 1/5 = 101/5 by norm_num]
  rw [show -(50 : ℚ) - 3/2 = (-103 : ℚ)/2 by norm_num]
  rw [fmt3_24, fmt3_3, fmt3_tenth, fmt3_fifth, fmt3_21, fmt3_202, fmt3_20,
    fmt3_neg50, fmt3_neg515, fmt3_twentieth]
  rfl

/-- Indexing into the 16-line tail block of the generated program. -/
lemma tail16_get2 (P F T : List String) (hT : T.length = 16) (s : String)
    (hs : T.get? 2 = some s) :
    ((P ++ F ++ T).drop ((P ++ F ++ T).length - 16)).get? 2 = some s := by
  have h1 : ((P ++ F) ++ T).length - 16 = (P ++ F).length := by
    rw [List.length_append, hT]
    omega
  rw [h1, List.drop_left]
  exact hs

/-! ## Claim theorems -/

/-- C1 as stated is false: with valid parameters (positive step, non-negative
allowance), rounding the recorded values to three decimals can produce an
element equal to the pre-finish target (stock `20.201`, step `0.0004`), and
can produce two equal consecutive elements, so the sequence is not strictly
decreasing (stock `20.2015`, step `0.001`, both recorded values `20.200`). -/
theorem c1_counterexample :
    (pass_diameters (20201/1000) 20 paramsA = some [20201/1000, 101/5] ∧
      ¬ (20 + paramsA.finish_allow < (101 : ℚ)/5)) ∧
    (pass_diameters (40403/2000) 20 paramsB = some [101/5, 101/5] ∧
      ¬ List.Chain' (fun a b => b < a) [(101 : ℚ)/5, 101/5]) := by
  have hstepA : paramsA.rough_step = 1/2500 := by norm_num [paramsA]
  have hallowA : paramsA.finish_allow = 1/5 := by norm_num [paramsA, defaultParams]
  have hstepB : paramsB.rough_step = 1/1000 := by norm_num [paramsB]
  have hallowB : paramsB.finish_allow = 199/1000 := by norm_num [paramsB]
  refine ⟨⟨?_, by rw [hallowA]; norm_num⟩, ⟨?_, ?_⟩⟩
  · rw [pass_diameters_eq, hstepA, hallowA]
    rw [show (20 : ℚ) + 1/5 = 101/5 by norm_num]
    rw [show ((⌈(((20201 : ℚ)/1000) - 101/5) / (1/2500)⌉).toNat + 1) = 4 by
      rw [ceil_toNat_eval (z := 3) (n := 3) (by norm_num) (by norm_num) rfl]]
    rw [passLoopFuel_succ_pos 3 _ _ _ (by norm_num)]
    rw [passLoopFuel_succ_pos 2 _ _ _ (by norm_num)]
    rw [passLoopFuel_succ_neg 1 _ _ _ (by norm_num)]
    simp only [Option.map_some']
    have r1 : round3 ((20201 : ℚ)/1000 - 1/2500) = 20201/1000 :=
      round3_eval
        (rhe_eval_gt (f := 20200) (r := 20201) (by norm_num) (by norm_num)
          (by norm_num))
        (by norm_num)
    have r2 : round3 ((20201 : ℚ)/1000 - 1/2500 - 1/2500) = 101/5 :=
      round3_eval (rhe_eval_lt (f := 20200) (by norm_num) (by norm_num))
        (by norm_num)
    rw [r1, r2]
  · rw [pass_diameters_eq, hstepB, hallowB]
    rw [show (20 : ℚ) + 199/1000 = 20199/1000 by norm_num]
    rw [show ((⌈(((40403 : ℚ)/2000) - 20199/1000) / (1/1000)⌉).toNat + 1) = 4 by
      rw [ceil_toNat_eval (z := 3) (n := 3) (by norm_num) (by norm_num) rfl]]
    rw [passLoopFuel_succ_pos 3 _ _ _ (by norm_num)]
    rw [passLoopFuel_succ_pos 2 _ _ _ (by norm_num)]
    rw [passLoopFuel_succ_neg 1 _ _ _ (by norm_num)]
    simp only [Option.map_some']
    have r1 : round3 ((40403 : ℚ)/2000 - 1/1000) = 101/5 :=
      round3_eval (rhe_eval_half_even (f := 20200) (by norm_num) (by norm_num))
        (by norm_num)
    have r2 : round3 ((40403 : ℚ)/2000 - 1/1000 - 1/1000) = 101/5 :=
      round3_eval
        (rhe_eval_half_odd (f := 20199) (r := 20200) (by norm_num) (by decide)
          (by norm_num))
        (by norm_num)
    rw [r1, r2]
  · intro hc
    exact absurd (List.chain'_cons.mp hc).1 (lt_irrefl _)

/-- C1 amended: when the stock diameter and the rough step are exact
multiples of 0.001 (so that `round(·, 3)` is the identity on every running
value) and the step is positive, the sequence `_pass_diameters` returns is
strictly decreasing and every element is strictly greater than
`finish_diameter + finish_allowance`; the finish diameter and the allowance
are arbitrary. -/
theorem c1_pass_sequence_amended (stock_d finish_d : ℚ) (params : TurnParams)
    (h1 : Mil stock_d) (h2 : Mil params.rough_step) (h3 : 0 < params.rough_step) :
    ∃ l, pass_diameters stock_d finish_d params = some l ∧
      List.Chain' (fun a b => b < a) l ∧
      ∀ x ∈ l, finish_d + params.finish_allow < x := by
  obtain ⟨l, hl⟩ := Option.isSome_iff_exists.mp
    (pass_diameters_isSome stock_d finish_d params h3)
  have hl2 : passLoopFuel
      ((⌈(stock_d - (finish_d + params.finish_allow)) / params.rough_step⌉).toNat + 1)
      stock_d params.rough_step (finish_d + params.finish_allow) = some l := hl
  obtain ⟨hchain, hmem⟩ := passLoop_chain params.rough_step
    (finish_d + params.finish_allow) h2 h3 _ stock_d l h1 hl2
  refine ⟨l, hl, ?_, hmem⟩
  cases l with
  | nil => exact List.chain'_nil
  | cons a as => exact (List.chain'_cons.mp hchain).2

/-- Witness for the amended C1 at the worked example's inputs. -/
theorem c1_pass_sequence_amended_witness :
    ∃ l, pass_diameters 22 20 defaultParams = some l ∧
      List.Chain' (fun a b => b < a) l ∧
      ∀ x ∈ l, 20 + defaultParams.finish_allow < x :=
  c1_pass_sequence_amended 22 20 defaultParams ⟨22000, by norm_num⟩
    ⟨1000, by norm_num [defaultParams]⟩ (by norm_num [defaultParams])

/-- C2 (the claim is right, the code is wrong): for `rough_step ≤ 0` with the
derived stock diameter above `target + rough_step`, the code never raises a
`ConfigurationError` — no such validation exists anywhere in the repository —
and the `_pass_diameters` while-loop never terminates: no fuel `n` suffices,
so `generate_cylinder_nc` produces no output at all. -/
theorem c2_rough_step_divergence (profile : CylinderProfile) (params : TurnParams)
    (n : ℕ) (h1 : params.rough_step ≤ 0)
    (h2 : round3 profile.diameter + params.finish_allow <
      round3 (round3 profile.diameter + params.stock_allow * 2) - params.rough_step) :
    generate_lines profile params = none ∧
    passLoopFuel n (round3 (round3 profile.diameter + params.stock_allow * 2))
      params.rough_step (round3 profile.diameter + params.finish_allow) = none := by
  have hnone := passLoop_none params.rough_step
    (round3 profile.diameter + params.finish_allow) h1
  constructor
  · simp only [generate_lines, pass_diameters]
    rw [hnone _ _ h2]
    rfl
  · exact hnone n _ h2

/-- Witness for C2 at the concrete failing input: the worked-example profile
with default parameters except `rough_step = 0`. -/
theorem c2_rough_step_divergence_witness :
    generate_lines exProfile paramsZeroStep = none ∧
    passLoopFuel 5 (round3 (round3 exProfile.diameter + paramsZeroStep.stock_allow * 2))
      paramsZeroStep.rough_step
      (round3 exProfile.diameter + paramsZeroStep.finish_allow) = none := by
  have e20 : round3 exProfile.diameter = 20 := by
    simp only [exProfile]
    exact round3_of_mil ⟨20000, by norm_num⟩
  refine c2_rough_step_divergence exProfile paramsZeroStep 5
    (by norm_num [paramsZeroStep]) ?_
  rw [e20]
  rw [show (20 : ℚ) + paramsZeroStep.stock_allow * 2 = 22 by
    norm_num [paramsZeroStep, defaultParams]]
  rw [round3_of_mil ⟨22000, by norm_num⟩]
  norm_num [paramsZeroStep, defaultParams]

/-- C3: for every bounding box, the profiler selects as axis a dimension of
maximum extent, sets the length to that extent, and sets the diameter to the
larger of the two remaining extents (never their average or the minimum). -/
theorem c3_axis_length_diameter (b : Bounds) :
    extentOf b (extents_to_profile b).axis =
      max (b.xmax - b.xmin) (max (b.ymax - b.ymin) (b.zmax - b.zmin)) ∧
    (extents_to_profile b).length = extentOf b (extents_to_profile b).axis ∧
    (extents_to_profile b).diameter = remainingMax b (extents_to_profile b).axis := by
  set dx := b.xmax - b.xmin with hdx
  set dy := b.ymax - b.ymin with hdy
  set dz := b.zmax - b.zmin with hdz
  by_cases h1 : dy ≤ dx ∧ dz ≤ dx
  · have haxis : (extents_to_profile b).axis = Axis.x := by
      rw [axis_eq, ← hdx, ← hdy, ← hdz, if_pos h1]
    refine ⟨?_, ?_, ?_⟩ <;> rw [haxis]
    · show dx = max dx (max dy dz)
      rw [max_eq_left (max_le h1.1 h1.2)]
    · show (extents_to_profile b).length = dx
      simp only [extents_to_profile, ← hdx, ← hdy, ← hdz, if_pos h1]
    · show (extents_to_profile b).diameter = max dy dz
      simp only [extents_to_profile, ← hdx, ← hdy, ← hdz, if_pos h1]
  · have hx : dx < dy ∨ dx < dz := by
      rcases not_and_or.mp h1 with h | h
      · exact Or.inl (lt_of_not_le h)
      · exact Or.inr (lt_of_not_le h)
    by_cases h2 : dz ≤ dy
    · have hxy : dx < dy := by rcases hx with h | h <;> linarith
      have haxis : (extents_to_profile b).axis = Axis.y := by
        rw [axis_eq, ← hdx, ← hdy, ← hdz, if_neg h1, if_pos h2]
      refine ⟨?_, ?_, ?_⟩ <;> rw [haxis]
      · show dy = max dx (max dy dz)
        rw [max_eq_left h2, max_eq_right hxy.le]
      · show (extents_to_profile b).length = dy
        simp only [extents_to_profile, ← hdx, ← hdy, ← hdz, if_neg h1, if_pos h2]
      · show (extents_to_profile b).diameter = max dx dz
        simp only [extents_to_profile, ← hdx, ← hdy, ← hdz, if_neg h1, if_pos h2]
    · have hyz : dy < dz := lt_of_not_le h2
      have hxz : dx < dz := by rcases hx with h | h <;> linarith
      have haxis : (extents_to_profile b).axis = Axis.z := by
        rw [axis_eq, ← hdx, ← hdy, ← hdz, if_neg h1, if_neg h2]
      refine ⟨?_, ?_, ?_⟩ <;> rw [haxis]
      · show dz = max dx (max dy dz)
        rw [max_eq_right hyz.le, max_eq_right hxz.le]
      · show (extents_to_profile b).length = dz
        simp only [extents_to_profile, ← hdx, ← hdy, ← hdz, if_neg h1, if_neg h2]
      · show (extents_to_profile b).diameter = max dx dy
        simp only [extents_to_profile, ← hdx, ← hdy, ← hdz, if_neg h1, if_neg h2]

/-- Counterexample to C4 as stated: a degenerate input (a single point, so
every bounding-box extent is `0`, hence `≤ 0`) does not make profiling fail;
it returns a zero-valued profile. -/
theorem c4_counterexample :
    profile_from_points [((0 : ℚ), (0 : ℚ), (0 : ℚ))] =
      Except.ok ⟨0, 0, Axis.x, ⟨0, 0, 0, 0, 0, 0⟩⟩ := by
  have h : profile_from_points [((0 : ℚ), (0 : ℚ), (0 : ℚ))] =
      Except.ok (extents_to_profile ⟨0, 0, 0, 0, 0, 0⟩) := rfl
  rw [h]
  congr 1
  simp only [extents_to_profile]
  norm_num

/-- C4 amended: profiling through the fallback path fails with an error
exactly when the extracted point set is empty; bounding-box extents are
never validated, so a degenerate box yields a (possibly zero-valued) profile
rather than an error. -/
theorem c4_error_iff_empty_amended (pts : List Point) :
    (∃ e, profile_from_points pts = Except.error e) ↔ pts = [] := by
  cases pts with
  | nil =>
    exact ⟨fun _ => rfl,
      fun _ => ⟨"no CARTESIAN_POINT found in STEP (fallback)", rfl⟩⟩
  | cons p ps =>
    constructor
    · rintro ⟨e, he⟩
      have hok : ∃ pr, profile_from_points (p :: ps) = Except.ok pr := ⟨_, rfl⟩
      obtain ⟨pr, hok⟩ := hok
      rw [hok] at he
      exact Except.noConfusion he
    · intro h
      exact absurd h (by simp)

/-- C5: the finishing block's radial move (its third line, two lines before
the end of the 16-line tail) drives X to exactly the three-decimal rendering
of `round(profile.diameter, 3)`, for every profile and parameters, and
re-rounding that value changes nothing — it is independent of any rounding
drift in the roughing diameters. -/
theorem c5_finish_exact (profile : CylinderProfile) (params : TurnParams)
    (l : List String) (h : generate_lines profile params = some l) :
    (l.drop (l.length - 16)).get? 2 = some ("G1X" ++ fmt3 (round3 profile.diameter)) ∧
    round3 (round3 profile.diameter) = round3 profile.diameter := by
  refine ⟨?_, round3_idem profile.diameter⟩
  simp only [generate_lines, Option.map_eq_some'] at h
  obtain ⟨rough, hr, hl⟩ := h
  subst hl
  refine tail16_get2 _ _ _ ?_ _ ?_
  · rfl
  · rfl

/-- Witness for C5 at the worked example. -/
theorem c5_finish_exact_witness :
    (exLinesList.drop (exLinesList.length - 16)).get? 2 =
      some ("G1X" ++ fmt3 (round3 exProfile.diameter)) ∧
    round3 (round3 exProfile.diameter) = round3 exProfile.diameter :=
  c5_finish_exact exProfile defaultParams exLinesList generate_exProfile_eval

/-- Counterexample to C6 as stated: the generated program contains the line
`X0.` (the facing cut to the centerline), whose X coordinate is rendered
with no decimal places at all, not three. -/
theorem c6_counterexample :
    generate_lines exProfile defaultParams = some exLinesList ∧
    exLinesList.get? 11 = some "X0." ∧
    dots3 "X0.".data = false :=
  ⟨generate_exProfile_eval, rfl, rfl⟩

/-- C6 amended: every coordinate and feed value interpolated from the
profile or the parameters is rendered with exactly three decimal places
(every decimal point in such a line is followed by exactly three digits);
the only lines escaping this rule are the hard-coded template literals —
the facing block's `Z0.` and `X0.`, the reference-return `G28U0.V0.W0.M05`,
and the parting target `X-1.0`. -/
theorem c6_three_decimals_amended (profile : CylinderProfile) (params : TurnParams)
    (l : List String) (h : generate_lines profile params = some l) :
    ∀ line ∈ l, dots3 line.data = true ∨
      line = "X0." ∨ line = "G28U0.V0.W0.M05" ∨
      line = "G99G1Z0.F" ++ fmt3 params.f_face ∨
      line = "G1X-1.0F" ++ fmt3 params.f_part := by
  simp only [generate_lines, Option.map_eq_some'] at h
  obtain ⟨rough, hr, hl⟩ := h
  subst hl
  intro line hline
  simp only [List.mem_append, List.mem_cons, List.not_mem_nil, or_false,
    List.mem_flatMap] at hline
  rcases hline with (hline | hline) | hline
  · rcases hline with rfl | rfl | rfl | rfl | rfl | rfl | rfl | rfl | rfl | rfl |
      rfl | rfl | rfl
    · exact Or.inl (by decide)
    · exact Or.inl (by decide)
    · exact Or.inl (by decide)
    · exact Or.inl (by decide)
    · exact Or.inl (by decide)
    · exact Or.inl (by decide)
    · exact Or.inl (by decide)
    · exact Or.inl (by decide)
    · exact Or.inl (dots3_line_G97S params.rpm)
    · exact Or.inl (dots3_line_G0G54XZM8 _ _)
    · exact Or.inr (Or.inr (Or.inr (Or.inl rfl)))
    · exact Or.inr (Or.inl rfl)
    · exact Or.inl (dots3_line_G0XZ _ _)
  · obtain ⟨d, _, hmem⟩ := hline
    simp only [rough_block, List.mem_cons, List.not_mem_nil, or_false] at hmem
    rcases hmem with rfl | rfl | rfl
    · exact Or.inl (dots3_line_G0XZ _ _)
    · exact Or.inl (dots3_line_G1ZF _ _)
    · exact Or.inl (dots3_line_G0Z _)
  · rcases hline with rfl | rfl | rfl | rfl | rfl | rfl | rfl | rfl | rfl | rfl |
      rfl | rfl | rfl | rfl | rfl | rfl
    · exact Or.inl (dots3_line_G0XZ _ _)
    · exact Or.inl (dots3_line_G1ZF _ _)
    · exact Or.inl (dots3_line_G1X _)
    · exact Or.inl (dots3_line_G0Z _)
    · exact Or.inr (Or.inr (Or.inl rfl))
    · exact Or.inl (by decide)
    · exact Or.inl (by decide)
    · exact Or.inl (by decide)
    · exact Or.inl (dots3_line_G97S params.rpm)
    · exact Or.inl (dots3_line_G0G54XZ _ _)
    · exact Or.inr (Or.inr (Or.inr (Or.inr rfl)))
    · exact Or.inl (dots3_line_G0Z _)
    · exact Or.inr (Or.inr (Or.inl rfl))
    · exact Or.inl (by decide)
    · exact Or.inl (by decide)
    · exact Or.inl (by decide)

/-- Witness for the amended C6: the program delimiter line of the worked
example satisfies the disjunction. -/
theorem c6_three_decimals_amended_witness :
    dots3 "%".data = true ∨ "%" = "X0." ∨ "%" = "G28U0.V0.W0.M05" ∨
      "%" = "G99G1Z0.F" ++ fmt3 defaultParams.f_face ∨
      "%" = "G1X-1.0F" ++ fmt3 defaultParams.f_part :=
  c6_three_decimals_amended exProfile defaultParams exLinesList
    generate_exProfile_eval "%" (by decide)

/-- Counterexample to C7 as stated: the rounded recorded value does not
become the running diameter.  With stock 1, target 0.998 and step 0.0004 the
first recorded value is `round3 (1 - 0.0004) = 1.000`; if the rounded value
became the running diameter the next recorded value would again be
`round3 (1.000 - 0.0004) = 1.000`, but the code records `0.999`. -/
theorem c7_counterexample :
    pass_diameters 1 (499/500) paramsC =
      some [1, 999/1000, 999/1000, 499/500] ∧
    round3 (1 - paramsC.rough_step) ≠ (999 : ℚ)/1000 := by
  have hstep : paramsC.rough_step = 1/2500 := by norm_num [paramsC]
  have hallow : paramsC.finish_allow = 0 := by norm_num [paramsC]
  have r1 : round3 ((1 : ℚ) - 1/2500) = 1 :=
    round3_eval
      (rhe_eval_gt (f := 999) (r := 1000) (by norm_num) (by norm_num) (by norm_num))
      (by norm_num)
  constructor
  · rw [pass_diameters_eq, hstep, hallow]
    rw [show (499 : ℚ)/500 + 0 = 499/500 by norm_num]
    rw [show ((⌈((1 : ℚ) - 499/500) / (1/2500)⌉).toNat + 1) = 6 by
      rw [ceil_toNat_eval (z := 5) (n := 5) (by norm_num) (by norm_num) rfl]]
    rw [passLoopFuel_succ_pos 5 _ _ _ (by norm_num)]
    rw [passLoopFuel_succ_pos 4 _ _ _ (by norm_num)]
    rw [passLoopFuel_succ_pos 3 _ _ _ (by norm_num)]
    rw [passLoopFuel_succ_pos 2 _ _ _ (by norm_num)]
    rw [passLoopFuel_succ_neg 1 _ _ _ (by norm_num)]
    simp only [Option.map_some']
    have r2 : round3 ((1 : ℚ) - 1/2500 - 1/2500) = 999/1000 :=
      round3_eval (rhe_eval_lt (f := 999) (by norm_num) (by norm_num)) (by norm_num)
    have r3 : round3 ((1 : ℚ) - 1/2500 - 1/2500 - 1/2500) = 999/1000 :=
      round3_eval
        (rhe_eval_gt (f := 998) (r := 999) (by norm_num) (by norm_num) (by norm_num))
        (by norm_num)
    have r4 : round3 ((1 : ℚ) - 1/2500 - 1/2500 - 1/2500 - 1/2500) = 499/500 :=
      round3_eval (rhe_eval_lt (f := 998) (by norm_num) (by norm_num)) (by norm_num)
    rw [r1, r2, r3, r4]
  · rw [hstep, r1]
    norm_num

/-- C7 amended: each recorded value is rounded to three decimals, but the
running diameter stays unrounded: the k-th recorded diameter (0-based)
equals `round(stock_d - (k+1)·rough_step, 3)`, computed from the exact
running value, not by stepping from the previously rounded element. -/
theorem c7_recorded_values_amended (stock_d finish_d : ℚ) (params : TurnParams)
    (l : List ℚ) (h : pass_diameters stock_d finish_d params = some l)
    (k : ℕ) (hk : k < l.length) :
    l.get? k = some (round3 (stock_d - (k + 1) * params.rough_step)) := by
  have h2 : passLoopFuel
      ((⌈(stock_d - (finish_d + params.finish_allow)) / params.rough_step⌉).toNat + 1)
      stock_d params.rough_step (finish_d + params.finish_allow) = some l := h
  exact passLoop_get params.rough_step (finish_d + params.finish_allow) _
    stock_d l h2 k hk

/-- Witness for the amended C7 at the worked example's pass plan. -/
theorem c7_recorded_values_amended_witness :
    ([(21 : ℚ)] : List ℚ).get? 0 =
      some (round3 (22 - (((0 : ℕ) : ℚ) + 1) * defaultParams.rough_step)) :=
  c7_recorded_values_amended 22 20 defaultParams [21] pass_diameters_default_eval
    0 (by norm_num)

/-- C8: program generation is a pure function of the profile and the
parameters — identical inputs give byte-identical output text. -/
theorem c8_deterministic (p1 p2 : CylinderProfile) (t1 t2 : TurnParams)
    (hp : p1 = p2) (ht : t1 = t2) :
    generate_cylinder_nc p1 t1 = generate_cylinder_nc p2 t2 := by
  subst hp
  subst ht
  rfl

/-- Witness for C8 at the worked example. -/
theorem c8_deterministic_witness :
    generate_cylinder_nc exProfile defaultParams =
      generate_cylinder_nc exProfile defaultParams :=
  c8_deterministic exProfile exProfile defaultParams defaultParams rfl rfl

/-- C9: the worked example (`length = 50`, `diameter = 20`, axis z, default
parameters) derives stock diameter 22, pre-finish target 20.2, exactly one
roughing pass, at diameter 21.000 (line 13 of the program), and a finishing
pass that starts at 20.200 and ends at exactly 20.000 (line 18). -/
theorem c9_worked_example :
    round3 (round3 exProfile.diameter + defaultParams.stock_allow * 2) = 22 ∧
    round3 exProfile.diameter + defaultParams.finish_allow = 20.2 ∧
    pass_diameters 22 (round3 exProfile.diameter) defaultParams = some [21] ∧
    generate_lines exProfile defaultParams = some exLinesList ∧
    exLinesList.length = 32 ∧
    exLinesList.get? 13 = some "G0X21.000Z3.000" ∧
    exLinesList.get? 16 = some "G0X20.200Z3.000" ∧
    exLinesList.get? 18 = some "G1X20.000" := by
  have e20 : round3 exProfile.diameter = 20 := by
    simp only [exProfile]
    exact round3_of_mil ⟨20000, by norm_num⟩
  refine ⟨?_, ?_, ?_, generate_exProfile_eval, rfl, rfl, rfl, rfl⟩
  · rw [e20, show (20 : ℚ) + defaultParams.stock_allow * 2 = 22 by
      norm_num [defaultParams]]
    exact round3_of_mil ⟨22000, by norm_num⟩
  · rw [e20]
    norm_num [defaultParams]
  · rw [e20]
    exact pass_diameters_default_eval

/-- C10 (implicit): on ties for the maximal extent the axis is the first
dimension, in the order x before y before z, attaining the maximum — the
selection is deterministic even on ties. -/
theorem c10_axis_tiebreak (b : Bounds) :
    (extents_to_profile b).axis =
      (if b.xmax - b.xmin =
          max (b.xmax - b.xmin) (max (b.ymax - b.ymin) (b.zmax - b.zmin))
       then Axis.x
       else if b.ymax - b.ymin =
          max (b.xmax - b.xmin) (max (b.ymax - b.ymin) (b.zmax - b.zmin))
       then Axis.y
       else Axis.z) := by
  set dx := b.xmax - b.xmin with hdx
  set dy := b.ymax - b.ymin with hdy
  set dz := b.zmax - b.zmin with hdz
  rw [axis_eq, ← hdx, ← hdy, ← hdz]
  by_cases h1 : dy ≤ dx ∧ dz ≤ dx
  · have hmax : max dx (max dy dz) = dx := max_eq_left (max_le h1.1 h1.2)
    rw [if_pos h1, if_pos hmax.symm]
  · have hx : dx < dy ∨ dx < dz := by
      rcases not_and_or.mp h1 with h | h
      · exact Or.inl (lt_of_not_le h)
      · exact Or.inr (lt_of_not_le h)
    by_cases h2 : dz ≤ dy
    · have hxy : dx < dy := by rcases hx with h | h <;> linarith
      have hmax : max dx (max dy dz) = dy := by
        rw [max_eq_left h2, max_eq_right hxy.le]
      have hne : ¬ dx = max dx (max dy dz) := by
        rw [hmax]
        exact ne_of_lt hxy
      rw [if_neg h1, if_pos h2, if_neg hne, if_pos hmax.symm]
    · have hyz : dy < dz := lt_of_not_le h2
      have hxz : dx < dz := by rcases hx with h | h <;> linarith
      have hmax : max dx (max dy dz) = dz := by
        rw [max_eq_right hyz.le, max_eq_right hxz.le]
      have hne1 : ¬ dx = max dx (max dy dz) := by
        rw [hmax]
        exact ne_of_lt hxz
      have hne2 : ¬ dy = max dx (max dy dz) := by
        rw [hmax]
        exact ne_of_lt hyz
      rw [if_neg h1, if_neg h2, if_neg hne1, if_neg hne2]
